import Mathlib

/-!
# Extension resource client of go-pagerduty (`extension.go`)

A shallow embedding of `extension.go`: the data model (`Extension`,
`ListExtensionResponse`, `ListExtensionOptions`), the five context-aware
operations with their deprecated forwarding variants, and the private helper
`getExtensionFromResponse`.

The HTTP client the operations are bound to (`c.get`, `c.post`, `c.put`,
`c.delete`, `c.decodeJSON`) is an arbitrary collaborator: it is a record of
state-passing functions over an arbitrary state type, so every theorem holds
for every behaviour of the transport.  Every collaborator call is appended to
a call log, which is how "issues exactly one call" and "never decodes" are
stated.
-/

namespace Pagerduty

/-! ## Go values -/

/-- A Go `error` that is not nil, given by the text its `Error()` method
returns, the only method of the `error` interface.  A possibly-nil `error` is
an `Option GoError`.  Which object carries the text is kept by `ErrorValue`. -/
structure GoError where
  msg : String
deriving DecidableEq, Repr

/-- Substitute `arg` for the first two-character verb (`%v`, `%s`) of a format
string. -/
def substVerb : List Char → List Char → List Char
  | [], _ => []
  | '%' :: _ :: rest, arg => arg ++ rest
  | c :: rest, arg => c :: substVerb rest arg

/-- `fmt.Errorf(format, arg)` for a format with one verb and a string or error
argument: a new error whose message is the formatted text. -/
def Errorf (format : String) (arg : String) : GoError :=
  ⟨String.mk (substVerb format.data arg.data)⟩

/-- A `context.Context`; `background` is `context.Background()`. -/
inductive Context where
  | background
  | derived (tag : Nat)
deriving DecidableEq, Repr

/-- An `http.Response` as far as this file is concerned: it is only handed
from the transport to `decodeJSON`. -/
structure Response where
  StatusCode : Nat
  Body : String
deriving DecidableEq, Repr

/-- A JSON value, the content of an `interface{}` field.  A number is kept as
its literal. -/
inductive JValue where
  | null
  | bool (b : Bool)
  | number (lit : String)
  | string (s : String)
  | array (xs : List JValue)
  | object (kvs : List (String × JValue))

/-! ## Data model -/

/-- Modelled from the spec: the declaration of `APIObject` is missing from the
source file; the spec gives it as the reference `{id, type, summary, self,
html_url}`. -/
structure APIObject where
  ID : String
  Type_ : String
  Summary : String
  Self : String
  HTMLURL : String
deriving DecidableEq, Repr

/-- Modelled from the spec: the declaration of `APIListObject` is missing from
the source file; the spec gives it as the pagination fields limit, offset,
more-flag and total count. -/
structure APIListObject where
  Limit : Nat
  Offset : Nat
  More : Bool
  Total : Nat
deriving DecidableEq, Repr

/-- `Extension`: the embedded `APIObject`, then the five declared fields.  A
slice is `none` when nil. -/
structure Extension extends APIObject where
  Name : String
  EndpointURL : String
  ExtensionObjects : Option (List APIObject)
  ExtensionSchema : APIObject
  Config : JValue

/-- `ListExtensionResponse`. -/
structure ListExtensionResponse extends APIListObject where
  Extensions : List Extension

/-- `ListExtensionOptions`. -/
structure ListExtensionOptions extends APIListObject where
  ExtensionObjectID : String
  ExtensionSchemaID : String
  Query : String
deriving DecidableEq, Repr

/-! ## The collaborator -/

/-- One call made on the client. -/
inductive Call where
  | get (ctx : Context) (path : String)
  | post (ctx : Context) (path : String) (payload : Option Extension)
      (headers : Option (List (String × String)))
  | put (ctx : Context) (path : String) (payload : Option Extension)
      (headers : Option (List (String × String)))
  | delete (ctx : Context) (path : String)
  | decodeJSON (resp : Option Response)

/-- Whether a call is one of the four HTTP calls. -/
def Call.isHTTP : Call → Bool
  | .decodeJSON _ => false
  | _ => true

/-- The state of the world an operation runs in: the collaborator's own state
and the log of the calls made on it so far. -/
structure World (σ : Type) where
  state : σ
  calls : List Call

/-- The behaviour of the `Client` the operations are bound to.  Each HTTP
function returns the pair `(*http.Response, error)`; `decodeJSON` returns what
it left in its target together with its error, once for each of the two
target types it is used at in this file. -/
structure Client (σ : Type) where
  httpGet : Context → String → σ → (Option Response × Option GoError) × σ
  httpPost : Context → String → Option Extension → Option (List (String × String)) → σ →
    (Option Response × Option GoError) × σ
  httpPut : Context → String → Option Extension → Option (List (String × String)) → σ →
    (Option Response × Option GoError) × σ
  httpDelete : Context → String → σ → (Option Response × Option GoError) × σ
  decodeList : Option Response → σ → (ListExtensionResponse × Option GoError) × σ
  decodeMap : Option Response → σ → (List (String × Extension) × Option GoError) × σ

variable {σ : Type}

/-- `c.get(ctx, path)`. -/
def Client.get (c : Client σ) (ctx : Context) (path : String) (w : World σ) :
    (Option Response × Option GoError) × World σ :=
  let r := c.httpGet ctx path w.state
  (r.1, ⟨r.2, w.calls ++ [Call.get ctx path]⟩)

/-- `c.post(ctx, path, payload, headers)`. -/
def Client.post (c : Client σ) (ctx : Context) (path : String) (payload : Option Extension)
    (headers : Option (List (String × String))) (w : World σ) :
    (Option Response × Option GoError) × World σ :=
  let r := c.httpPost ctx path payload headers w.state
  (r.1, ⟨r.2, w.calls ++ [Call.post ctx path payload headers]⟩)

/-- `c.put(ctx, path, payload, headers)`. -/
def Client.put (c : Client σ) (ctx : Context) (path : String) (payload : Option Extension)
    (headers : Option (List (String × String))) (w : World σ) :
    (Option Response × Option GoError) × World σ :=
  let r := c.httpPut ctx path payload headers w.state
  (r.1, ⟨r.2, w.calls ++ [Call.put ctx path payload headers]⟩)

/-- `c.delete(ctx, path)`. -/
def Client.delete (c : Client σ) (ctx : Context) (path : String) (w : World σ) :
    (Option Response × Option GoError) × World σ :=
  let r := c.httpDelete ctx path w.state
  (r.1, ⟨r.2, w.calls ++ [Call.delete ctx path]⟩)

/-- `c.decodeJSON(resp, &result)` with `result` a `ListExtensionResponse`. -/
def Client.decodeJSONList (c : Client σ) (resp : Option Response) (w : World σ) :
    (ListExtensionResponse × Option GoError) × World σ :=
  let r := c.decodeList resp w.state
  (r.1, ⟨r.2, w.calls ++ [Call.decodeJSON resp]⟩)

/-- `c.decodeJSON(resp, &target)` with `target` a `map[string]Extension`, the
map given by its entries. -/
def Client.decodeJSONMap (c : Client σ) (resp : Option Response) (w : World σ) :
    (List (String × Extension) × Option GoError) × World σ :=
  let r := c.decodeMap resp w.state
  (r.1, ⟨r.2, w.calls ++ [Call.decodeJSON resp]⟩)

/-! ## The query string of a list call -/

/-- A `url.Values` under construction, as the `(key, value)` pairs in the
order they were added. -/
abbrev Values := List (String × String)

/-- `values.Add(name, value)` for a field tagged `omitempty`: skipped when the
field holds the empty value of its type. -/
def addOmitEmpty (v : Values) (name : String) (isEmpty : Bool) (value : String) : Values :=
  if isEmpty then v else v ++ [(name, value)]

/-- Modelled from the spec: `query.Values` is code of go-querystring, not of
the source file; the spec words it as "only non-empty/non-zero fields
included".  The three declared fields are added first under the names of their
`url` tags, the pagination fields of the embedded `APIListObject` after them
(`limit`, `offset`, `more`, `total`, every one `omitempty`); a struct argument
never makes it fail, so the error is nil. -/
def queryValues (o : ListExtensionOptions) : Values × Option GoError :=
  let v : Values := []
  let v := addOmitEmpty v "extension_object_id" (o.ExtensionObjectID == "") o.ExtensionObjectID
  let v := addOmitEmpty v "extension_schema_id" (o.ExtensionSchemaID == "") o.ExtensionSchemaID
  let v := addOmitEmpty v "query" (o.Query == "") o.Query
  let v := addOmitEmpty v "limit" (o.Limit == 0) (toString o.Limit)
  let v := addOmitEmpty v "offset" (o.Offset == 0) (toString o.Offset)
  let v := addOmitEmpty v "more" (o.More == false) (toString o.More)
  let v := addOmitEmpty v "total" (o.Total == 0) (toString o.Total)
  (v, none)

/-- Upper-case hexadecimal digit of a number below 16. -/
def upperhex (n : Nat) : Char :=
  "0123456789ABCDEF".data.getD (n % 16) '0'

/-- Whether `url.QueryEscape` must escape a character: everything but ASCII
letters, digits and `-`, `_`, `.`, `~`. -/
def shouldEscape (c : Char) : Bool :=
  !(c.isAlphanum || c == '-' || c == '_' || c == '.' || c == '~')

/-- The escape of one character: a space is `+`, an escaped character is
`%XX` for each byte of its UTF-8 encoding. -/
def escapeChar (c : Char) : List Char :=
  if c = ' ' then ['+']
  else if shouldEscape c then
    (String.utf8EncodeChar c).flatMap fun b =>
      ['%', upperhex (b.toNat / 16), upperhex (b.toNat % 16)]
  else [c]

/-- `url.QueryEscape(s)`, as a list of characters. -/
def QueryEscape (s : String) : List Char :=
  s.data.flatMap escapeChar

/-- One `key=value` segment of an encoded query string. -/
def encodeSegment (kv : String × String) : List Char :=
  QueryEscape kv.1 ++ '=' :: QueryEscape kv.2

/-- Lexicographic "less or equal" on the characters of two strings, the order
of Go strings. -/
def charsLE : List Char → List Char → Bool
  | [], _ => true
  | _ :: _, [] => false
  | a :: as, b :: bs =>
    if a.toNat < b.toNat then true
    else if b.toNat < a.toNat then false
    else charsLE as bs

/-- The order `Encode` sorts keys in. -/
def keyLE (a b : String × String) : Prop := charsLE a.1.data b.1.data = true

instance : DecidableRel keyLE :=
  fun a b => inferInstanceAs (Decidable (charsLE a.1.data b.1.data = true))

/-- Modelled from the spec: `v.Encode()` is code of `net/url`, not of the
source file; it gives the `<query>` of `/extensions?<query>`: the segments
`key=value`, both sides escaped, in the order of their keys (segments of one
key in the order they were added), joined by `&`. -/
def Values.Encode (v : Values) : String :=
  String.mk (['&'].intercalate ((v.insertionSort keyLE).map encodeSegment))

/-- The `key=value` segments of a query string: its pieces between `&`, the
empty pieces dropped. -/
def querySegments (qs : String) : List (List Char) :=
  (qs.data.splitOn '&').filter fun seg => !seg.isEmpty

/-- The parameter names of a query string: of each segment, what stands before
its first `=`. -/
def paramNames (qs : String) : List String :=
  (querySegments qs).map fun seg => String.mk (seg.takeWhile fun ch => ch != '=')

/-! ## The operations -/

/-- `getExtensionFromResponse(c, resp, err)`. -/
def getExtensionFromResponse (c : Client σ) (resp : Option Response) (err : Option GoError)
    (w : World σ) : (Option Extension × Option GoError) × World σ :=
  match err with
  | some e => ((none, some e), w)
  | none =>
    match c.decodeJSONMap resp w with
    | ((_, some dErr), w1) =>
      ((none, some (Errorf "Could not decode JSON response: %v" dErr.msg)), w1)
    | ((target, none), w1) =>
      let rootNode := "extension"
      match target.lookup rootNode with
      | none => ((none, some (Errorf "JSON response does not have %s field" rootNode)), w1)
      | some t => ((some t, none), w1)

/-- `(c *Client) ListExtensionsWithContext(ctx, o)`. -/
def ListExtensionsWithContext (c : Client σ) (ctx : Context) (o : ListExtensionOptions)
    (w : World σ) : (Option ListExtensionResponse × Option GoError) × World σ :=
  match queryValues o with
  | (_, some err) => ((none, some err), w)
  | (v, none) =>
    match c.get ctx ("/extensions?" ++ v.Encode) w with
    | ((_, some err), w1) => ((none, some err), w1)
    | ((resp, none), w1) =>
      match c.decodeJSONList resp w1 with
      | ((_, some err), w2) => ((none, some err), w2)
      | ((result, none), w2) => ((some result, none), w2)

/-- `(c *Client) ListExtensions(o)`. -/
def ListExtensions (c : Client σ) (o : ListExtensionOptions) (w : World σ) :
    (Option ListExtensionResponse × Option GoError) × World σ :=
  ListExtensionsWithContext c Context.background o w

/-- `(c *Client) CreateExtensionWithContext(ctx, e)`. -/
def CreateExtensionWithContext (c : Client σ) (ctx : Context) (e : Option Extension)
    (w : World σ) : (Option Extension × Option GoError) × World σ :=
  match c.post ctx "/extensions" e none w with
  | ((resp, err), w1) => getExtensionFromResponse c resp err w1

/-- `(c *Client) CreateExtension(e)`. -/
def CreateExtension (c : Client σ) (e : Option Extension) (w : World σ) :
    (Option Extension × Option GoError) × World σ :=
  CreateExtensionWithContext c Context.background e w

/-- `(c *Client) DeleteExtensionWithContext(ctx, id)`. -/
def DeleteExtensionWithContext (c : Client σ) (ctx : Context) (id : String) (w : World σ) :
    Option GoError × World σ :=
  match c.delete ctx ("/extensions/" ++ id) w with
  | ((_, err), w1) => (err, w1)

/-- `(c *Client) DeleteExtension(id)`. -/
def DeleteExtension (c : Client σ) (id : String) (w : World σ) : Option GoError × World σ :=
  DeleteExtensionWithContext c Context.background id w

/-- `(c *Client) GetExtensionWithContext(ctx, id)`. -/
def GetExtensionWithContext (c : Client σ) (ctx : Context) (id : String) (w : World σ) :
    (Option Extension × Option GoError) × World σ :=
  match c.get ctx ("/extensions/" ++ id) w with
  | ((resp, err), w1) => getExtensionFromResponse c resp err w1

/-- `(c *Client) GetExtension(id)`. -/
def GetExtension (c : Client σ) (id : String) (w : World σ) :
    (Option Extension × Option GoError) × World σ :=
  GetExtensionWithContext c Context.background id w

/-- `(c *Client) UpdateExtensionWithContext(ctx, id, e)`. -/
def UpdateExtensionWithContext (c : Client σ) (ctx : Context) (id : String)
    (e : Option Extension) (w : World σ) : (Option Extension × Option GoError) × World σ :=
  match c.put ctx ("/extensions/" ++ id) e none w with
  | ((resp, err), w1) => getExtensionFromResponse c resp err w1

/-- `(c *Client) UpdateExtension(id, e)`. -/
def UpdateExtension (c : Client σ) (id : String) (e : Option Extension) (w : World σ) :
    (Option Extension × Option GoError) × World σ :=
  UpdateExtensionWithContext c Context.background id e w

/-! ## The JSON form of an Extension

`Extension` has no codec of its own: `encoding/json` derives one from the
field tags of the struct declaration.  The codec is given here on parsed JSON
values. -/

/-- A string field tagged `omitempty`: absent when empty. -/
def omitEmptyString (key : String) (s : String) : List (String × JValue) :=
  if s = "" then [] else [(key, JValue.string s)]

/-- Modelled from the spec: the members an `APIObject` encodes to; its
declaration is missing from the source file, the spec names the keys `id`,
`type`, `summary`, `self`, `html_url`.  Each is left out when empty. -/
def APIObject.jsonFields (a : APIObject) : List (String × JValue) :=
  omitEmptyString "id" a.ID ++ omitEmptyString "type" a.Type_ ++
    omitEmptyString "summary" a.Summary ++ omitEmptyString "self" a.Self ++
    omitEmptyString "html_url" a.HTMLURL

/-- The JSON object of an `APIObject`. -/
def APIObject.encode (a : APIObject) : JValue :=
  JValue.object a.jsonFields

/-- A slice of `APIObject`: `null` when nil, an array otherwise. -/
def encodeObjects : Option (List APIObject) → JValue
  | none => JValue.null
  | some xs => JValue.array (xs.map APIObject.encode)

/-- Modelled from the spec: `encode(E)`, the work of `json.Marshal`, which is
not code of the source file.  The members follow the field tags of the
`Extension` declaration: the promoted fields of the embedded `APIObject`, then
`name`, `endpoint_url` (omitted when empty), `extension_objects`,
`extension_schema` and `config`, the last one passed through as it is. -/
def Extension.encode (e : Extension) : JValue :=
  JValue.object (e.toAPIObject.jsonFields ++ [("name", JValue.string e.Name)] ++
    omitEmptyString "endpoint_url" e.EndpointURL ++
    [("extension_objects", encodeObjects e.ExtensionObjects),
     ("extension_schema", e.ExtensionSchema.encode),
     ("config", e.Config)])

/-- The error of decoding a JSON value of the wrong kind into a field. -/
def unmarshalTypeError (field : String) : GoError :=
  ⟨"json: cannot unmarshal value into Go struct field " ++ field⟩

/-- Decode a JSON value into a string field holding `cur`: `null` leaves the
field as it is. -/
def decodeStringInto (field : String) (cur : String) : JValue → Except GoError String
  | JValue.string s => Except.ok s
  | JValue.null => Except.ok cur
  | _ => Except.error (unmarshalTypeError field)

/-- Decode one member of a JSON object into an `APIObject`; a key that names no
field is skipped. -/
def APIObject.setField (a : APIObject) (kv : String × JValue) : Except GoError APIObject :=
  if kv.1 = "id" then (decodeStringInto "id" a.ID kv.2).map fun s => { a with ID := s }
  else if kv.1 = "type" then
    (decodeStringInto "type" a.Type_ kv.2).map fun s => { a with Type_ := s }
  else if kv.1 = "summary" then
    (decodeStringInto "summary" a.Summary kv.2).map fun s => { a with Summary := s }
  else if kv.1 = "self" then
    (decodeStringInto "self" a.Self kv.2).map fun s => { a with Self := s }
  else if kv.1 = "html_url" then
    (decodeStringInto "html_url" a.HTMLURL kv.2).map fun s => { a with HTMLURL := s }
  else Except.ok a

/-- Decode a JSON value into an `APIObject` holding `a`. -/
def APIObject.decodeInto (a : APIObject) : JValue → Except GoError APIObject
  | JValue.object kvs => kvs.foldlM APIObject.setField a
  | JValue.null => Except.ok a
  | _ => Except.error (unmarshalTypeError "APIObject")

/-- The zero value of `APIObject`. -/
def APIObject.zero : APIObject := ⟨"", "", "", "", ""⟩

/-- Decode a JSON value into a slice of `APIObject`: `null` gives the nil
slice, an array a slice of freshly decoded elements. -/
def decodeObjects : JValue → Except GoError (Option (List APIObject))
  | JValue.array xs => (xs.mapM (APIObject.decodeInto APIObject.zero)).map some
  | JValue.null => Except.ok none
  | _ => Except.error (unmarshalTypeError "extension_objects")

/-- Decode one member of a JSON object into an `Extension`. -/
def Extension.setField (e : Extension) (kv : String × JValue) : Except GoError Extension :=
  if kv.1 = "name" then (decodeStringInto "name" e.Name kv.2).map fun s => { e with Name := s }
  else if kv.1 = "endpoint_url" then
    (decodeStringInto "endpoint_url" e.EndpointURL kv.2).map fun s => { e with EndpointURL := s }
  else if kv.1 = "extension_objects" then
    (decodeObjects kv.2).map fun xs => { e with ExtensionObjects := xs }
  else if kv.1 = "extension_schema" then
    (e.ExtensionSchema.decodeInto kv.2).map fun a => { e with ExtensionSchema := a }
  else if kv.1 = "config" then Except.ok { e with Config := kv.2 }
  else (e.toAPIObject.setField kv).map fun a => { e with toAPIObject := a }

/-- The zero value of `Extension`. -/
def Extension.zero : Extension :=
  { toAPIObject := APIObject.zero, Name := "", EndpointURL := "", ExtensionObjects := none,
    ExtensionSchema := APIObject.zero, Config := JValue.null }

/-- Modelled from the spec: `decode`, the work of `json.Unmarshal` into a
fresh `Extension`, which is not code of the source file.  The members are
taken in order, each stored in the field its key names. -/
def Extension.decode : JValue → Except GoError Extension
  | JValue.object kvs => kvs.foldlM Extension.setField Extension.zero
  | JValue.null => Except.ok Extension.zero
  | _ => Except.error (unmarshalTypeError "Extension")

/-! ## The three singular operations, taken together -/

/-- The arguments of a call of Create, Get or Update. -/
inductive SingularOp where
  | create (e : Option Extension)
  | get (id : String)
  | update (id : String) (e : Option Extension)

/-- The context-aware operation a `SingularOp` stands for. -/
def SingularOp.run (c : Client σ) (ctx : Context) :
    SingularOp → World σ → (Option Extension × Option GoError) × World σ
  | SingularOp.create e => CreateExtensionWithContext c ctx e
  | SingularOp.get id => GetExtensionWithContext c ctx id
  | SingularOp.update id e => UpdateExtensionWithContext c ctx id e

/-- The deprecated operation without context a `SingularOp` stands for. -/
def SingularOp.runLegacy (c : Client σ) :
    SingularOp → World σ → (Option Extension × Option GoError) × World σ
  | SingularOp.create e => CreateExtension c e
  | SingularOp.get id => GetExtension c id
  | SingularOp.update id e => UpdateExtension c id e

/-- The HTTP call the claims give for each operation: verb, context, path,
body. -/
def SingularOp.call (ctx : Context) : SingularOp → Call
  | SingularOp.create e => Call.post ctx "/extensions" e none
  | SingularOp.get id => Call.get ctx ("/extensions/" ++ id)
  | SingularOp.update id e => Call.put ctx ("/extensions/" ++ id) e none

/-- What the transport answers to that HTTP call in collaborator state `s`. -/
def SingularOp.answer (c : Client σ) (ctx : Context) :
    SingularOp → σ → (Option Response × Option GoError) × σ
  | SingularOp.create e => c.httpPost ctx "/extensions" e none
  | SingularOp.get id => c.httpGet ctx ("/extensions/" ++ id)
  | SingularOp.update id e => c.httpPut ctx ("/extensions/" ++ id) e none

/-- The HTTP call of `op` fails with the error `e`. -/
def TransportFails (c : Client σ) (ctx : Context) (op : SingularOp) (w : World σ)
    (e : GoError) : Prop :=
  ∃ resp s1, op.answer c ctx w.state = ((resp, some e), s1)

/-- The HTTP call of `op` succeeds and `decodeJSON` fails with `dErr`. -/
def DecodeFails (c : Client σ) (ctx : Context) (op : SingularOp) (w : World σ)
    (dErr : GoError) : Prop :=
  ∃ resp s1 target s2, op.answer c ctx w.state = ((resp, none), s1) ∧
    c.decodeMap resp s1 = ((target, some dErr), s2)

/-- The HTTP call of `op` succeeds and the body decodes to the mapping
`target`. -/
def DecodesTo (c : Client σ) (ctx : Context) (op : SingularOp) (w : World σ)
    (target : List (String × Extension)) : Prop :=
  ∃ resp s1 s2, op.answer c ctx w.state = ((resp, none), s1) ∧
    c.decodeMap resp s1 = ((target, none), s2)

/-! ## Error values

`GoError` keeps the text of an error.  Two Go `error` values are the same value
when they are the same object: `fmt.Errorf` returns an object it has just
allocated, and the `err` the helper is handed is an object of the
collaborator. -/

/-- An error value as the caller of a singular operation receives it: the `err`
of the collaborator, handed on as it is, or an object newly allocated by
`fmt.Errorf` in the helper.  A newly allocated object is never the same value
as one the collaborator handed over, whatever the two texts are. -/
inductive ErrorValue where
  | passed (e : GoError)
  | created (e : GoError)
deriving DecidableEq, Repr

/-- The error of an error value, with its text and nothing else. -/
def ErrorValue.error : ErrorValue → GoError
  | ErrorValue.passed e => e
  | ErrorValue.created e => e

/-- `getExtensionFromResponse(c, resp, err)` with its error result as an error
value: `return nil, err` hands on the value it was given, each `fmt.Errorf`
makes a new one. -/
def getExtensionFromResponseValue (c : Client σ) (resp : Option Response)
    (err : Option GoError) (w : World σ) : (Option Extension × Option ErrorValue) × World σ :=
  match err with
  | some e => ((none, some (ErrorValue.passed e)), w)
  | none =>
    match c.decodeJSONMap resp w with
    | ((_, some dErr), w1) =>
      ((none, some (ErrorValue.created (Errorf "Could not decode JSON response: %v" dErr.msg))),
        w1)
    | ((target, none), w1) =>
      let rootNode := "extension"
      match target.lookup rootNode with
      | none =>
        ((none,
            some (ErrorValue.created (Errorf "JSON response does not have %s field" rootNode))),
          w1)
      | some t => ((some t, none), w1)

/-- Create, Get and Update with their error result as an error value: the HTTP
call of the operation, then the helper. -/
def SingularOp.runValue (c : Client σ) (ctx : Context) :
    SingularOp → World σ → (Option Extension × Option ErrorValue) × World σ
  | SingularOp.create e, w =>
    match c.post ctx "/extensions" e none w with
    | ((resp, err), w1) => getExtensionFromResponseValue c resp err w1
  | SingularOp.get id, w =>
    match c.get ctx ("/extensions/" ++ id) w with
    | ((resp, err), w1) => getExtensionFromResponseValue c resp err w1
  | SingularOp.update id e, w =>
    match c.put ctx ("/extensions/" ++ id) e none w with
    | ((resp, err), w1) => getExtensionFromResponseValue c resp err w1

/-! ## Concrete collaborators -/

/-- A mock collaborator without state: every HTTP call answers `http`, and
`decodeJSON` leaves `lst` or `mp` in its target. -/
def mockClient (http : Option Response × Option GoError)
    (lst : ListExtensionResponse × Option GoError)
    (mp : List (String × Extension) × Option GoError) : Client Unit where
  httpGet := fun _ _ s => (http, s)
  httpPost := fun _ _ _ _ s => (http, s)
  httpPut := fun _ _ _ _ s => (http, s)
  httpDelete := fun _ _ s => (http, s)
  decodeList := fun _ s => (lst, s)
  decodeMap := fun _ s => (mp, s)

/-- The world before any call. -/
def World.start : World Unit := ⟨(), []⟩

/-- An extension with id `X` and name `N`. -/
def extXN : Extension :=
  { Extension.zero with ID := "X", Name := "N" }

/-- The empty list response. -/
def ListExtensionResponse.zero : ListExtensionResponse :=
  { Limit := 0, Offset := 0, More := false, Total := 0, Extensions := [] }

/-- A `200 OK` response. -/
def okResponse : Response := ⟨200, ""⟩

/-- A collaborator whose HTTP calls succeed and whose singular response decodes
to a mapping with the one key `other_key`. -/
def otherKeyClient : Client Unit :=
  mockClient (some okResponse, none) (ListExtensionResponse.zero, none)
    ([("other_key", extXN)], none)

/-- A collaborator whose HTTP calls succeed and whose singular response decodes
to a mapping with the key `extension`, holding `extXN`, after another key. -/
def extensionClient : Client Unit :=
  mockClient (some okResponse, none)
    ({ ListExtensionResponse.zero with Extensions := [extXN] }, none)
    ([("other_key", Extension.zero), ("extension", extXN)], none)

/-- A collaborator whose HTTP calls all fail with the error `e`. -/
def failingClient (e : GoError) : Client Unit :=
  mockClient (none, some e) (ListExtensionResponse.zero, none) ([], none)

/-- A collaborator whose HTTP calls succeed and whose `decodeJSON` fails with
the error `dErr`. -/
def undecodableClient (dErr : GoError) : Client Unit :=
  mockClient (some okResponse, none) (ListExtensionResponse.zero, some dErr) ([], some dErr)

/-- The options `{Query: "foo"}` with a page limit of 25. -/
def queryFooLimit : ListExtensionOptions :=
  { Limit := 25, Offset := 0, More := false, Total := 0, ExtensionObjectID := "",
    ExtensionSchemaID := "", Query := "foo" }

/-- The options `{Query: "foo"}`. -/
def queryFoo : ListExtensionOptions :=
  { Limit := 0, Offset := 0, More := false, Total := 0, ExtensionObjectID := "",
    ExtensionSchemaID := "", Query := "foo" }

end Pagerduty

namespace Pagerduty

variable {σ : Type}

/-! ## Lemmas on the helper -/

lemma Errorf_missing_root :
    Errorf "JSON response does not have %s field" "extension" = ⟨"JSON response does not have extension field"⟩ := by
  decide

lemma Errorf_decode (s : String) :
    Errorf "Could not decode JSON response: %v" s = ⟨"Could not decode JSON response: " ++ s⟩ := by
  simp [Errorf, substVerb]
  rfl

lemma run_eq_helper (c : Client σ) (ctx : Context) (op : SingularOp) (w : World σ) :
    op.run c ctx w =
      getExtensionFromResponse c (op.answer c ctx w.state).1.1 (op.answer c ctx w.state).1.2
        ⟨(op.answer c ctx w.state).2, w.calls ++ [op.call ctx]⟩ := by
  cases op <;> rfl

lemma helper_transport_error (c : Client σ) (resp : Option Response) (e : GoError)
    (w : World σ) : getExtensionFromResponse c resp (some e) w = ((none, some e), w) := rfl

lemma helper_decode_error (c : Client σ) (resp : Option Response) (w : World σ)
    (target : List (String × Extension)) (dErr : GoError) (s2 : σ)
    (h : c.decodeMap resp w.state = ((target, some dErr), s2)) :
    getExtensionFromResponse c resp none w =
      ((none, some ⟨"Could not decode JSON response: " ++ dErr.msg⟩),
        ⟨s2, w.calls ++ [Call.decodeJSON resp]⟩) := by
  simp [getExtensionFromResponse, Client.decodeJSONMap, h, Errorf_decode]

lemma helper_missing_root (c : Client σ) (resp : Option Response) (w : World σ)
    (target : List (String × Extension)) (s2 : σ)
    (h : c.decodeMap resp w.state = ((target, none), s2))
    (hk : target.lookup "extension" = none) :
    getExtensionFromResponse c resp none w =
      ((none, some ⟨"JSON response does not have extension field"⟩), ⟨s2, w.calls ++ [Call.decodeJSON resp]⟩) := by
  simp [getExtensionFromResponse, Client.decodeJSONMap, h, hk, Errorf_missing_root]

lemma helper_found (c : Client σ) (resp : Option Response) (w : World σ)
    (target : List (String × Extension)) (s2 : σ) (t : Extension)
    (h : c.decodeMap resp w.state = ((target, none), s2))
    (hk : target.lookup "extension" = some t) :
    getExtensionFromResponse c resp none w =
      ((some t, none), ⟨s2, w.calls ++ [Call.decodeJSON resp]⟩) := by
  simp [getExtensionFromResponse, Client.decodeJSONMap, h, hk]

lemma lookup_none_of_no_key (target : List (String × Extension))
    (hk : ∀ kv ∈ target, kv.1 ≠ "extension") : target.lookup "extension" = none := by
  rw [List.lookup_eq_none_iff]
  intro p hp
  have h := hk p hp
  simp only [bne_iff_ne, ne_eq]
  exact fun h2 => h h2.symm

lemma helper_calls (c : Client σ) (resp : Option Response) (err : Option GoError)
    (w : World σ) :
    ∃ rest, (getExtensionFromResponse c resp err w).2.calls = w.calls ++ rest ∧
      rest.all (fun x => !x.isHTTP) = true := by
  cases err with
  | some e => exact ⟨[], by simp [helper_transport_error], rfl⟩
  | none =>
    rcases h : c.decodeMap resp w.state with ⟨⟨target, dErr⟩, s2⟩
    cases dErr with
    | some d =>
      rw [helper_decode_error c resp w target d s2 h]
      exact ⟨[Call.decodeJSON resp], rfl, rfl⟩
    | none =>
      cases hk : target.lookup "extension" with
      | none =>
        rw [helper_missing_root c resp w target s2 h hk]
        exact ⟨[Call.decodeJSON resp], rfl, rfl⟩
      | some t =>
        rw [helper_found c resp w target s2 t h hk]
        exact ⟨[Call.decodeJSON resp], rfl, rfl⟩

lemma list_unfold (c : Client σ) (ctx : Context) (o : ListExtensionOptions) (w : World σ) :
    ListExtensionsWithContext c ctx o w =
      match c.get ctx ("/extensions?" ++ (queryValues o).1.Encode) w with
      | ((_, some err), w1) => ((none, some err), w1)
      | ((resp, none), w1) =>
        match c.decodeJSONList resp w1 with
        | ((_, some err), w2) => ((none, some err), w2)
        | ((result, none), w2) => ((some result, none), w2) := rfl

lemma list_get_error (c : Client σ) (ctx : Context) (o : ListExtensionOptions) (w : World σ)
    (resp : Option Response) (e : GoError) (s1 : σ)
    (h : c.httpGet ctx ("/extensions?" ++ (queryValues o).1.Encode) w.state =
      ((resp, some e), s1)) :
    ListExtensionsWithContext c ctx o w =
      ((none, some e),
        ⟨s1, w.calls ++ [Call.get ctx ("/extensions?" ++ (queryValues o).1.Encode)]⟩) := by
  rw [list_unfold]
  simp [Client.get, h]

lemma list_decode_error (c : Client σ) (ctx : Context) (o : ListExtensionOptions) (w : World σ)
    (resp : Option Response) (s1 : σ) (result : ListExtensionResponse) (dErr : GoError) (s2 : σ)
    (h : c.httpGet ctx ("/extensions?" ++ (queryValues o).1.Encode) w.state =
      ((resp, none), s1))
    (hd : c.decodeList resp s1 = ((result, some dErr), s2)) :
    ListExtensionsWithContext c ctx o w =
      ((none, some dErr),
        ⟨s2, w.calls ++ [Call.get ctx ("/extensions?" ++ (queryValues o).1.Encode)] ++
          [Call.decodeJSON resp]⟩) := by
  rw [list_unfold]
  simp [Client.get, Client.decodeJSONList, h, hd]

lemma list_decode_ok (c : Client σ) (ctx : Context) (o : ListExtensionOptions) (w : World σ)
    (resp : Option Response) (s1 : σ) (result : ListExtensionResponse) (s2 : σ)
    (h : c.httpGet ctx ("/extensions?" ++ (queryValues o).1.Encode) w.state =
      ((resp, none), s1))
    (hd : c.decodeList resp s1 = ((result, none), s2)) :
    ListExtensionsWithContext c ctx o w =
      ((some result, none),
        ⟨s2, w.calls ++ [Call.get ctx ("/extensions?" ++ (queryValues o).1.Encode)] ++
          [Call.decodeJSON resp]⟩) := by
  rw [list_unfold]
  simp [Client.get, Client.decodeJSONList, h, hd]

lemma list_calls_get (c : Client σ) (ctx : Context) (o : ListExtensionOptions) (w : World σ) :
    ∃ rest, (ListExtensionsWithContext c ctx o w).2.calls =
        w.calls ++ Call.get ctx ("/extensions?" ++ (queryValues o).1.Encode) :: rest ∧
      rest.all (fun x => !x.isHTTP) = true := by
  rcases h : c.httpGet ctx ("/extensions?" ++ (queryValues o).1.Encode) w.state with
    ⟨⟨resp, err⟩, s1⟩
  cases err with
  | some e =>
    rw [list_get_error c ctx o w resp e s1 h]
    exact ⟨[], rfl, rfl⟩
  | none =>
    rcases hd : c.decodeList resp s1 with ⟨⟨result, dErr⟩, s2⟩
    cases dErr with
    | some d =>
      rw [list_decode_error c ctx o w resp s1 result d s2 h hd]
      exact ⟨[Call.decodeJSON resp], by simp, rfl⟩
    | none =>
      rw [list_decode_ok c ctx o w resp s1 result s2 h hd]
      exact ⟨[Call.decodeJSON resp], by simp, rfl⟩

lemma helper_error_no_result (c : Client σ) (resp : Option Response) (err : Option GoError)
    (w : World σ) (h : (getExtensionFromResponse c resp err w).1.2 ≠ none) :
    (getExtensionFromResponse c resp err w).1.1 = none := by
  cases err with
  | some e => rfl
  | none =>
    rcases hd : c.decodeMap resp w.state with ⟨⟨target, dErr⟩, s2⟩
    cases dErr with
    | some d => rw [helper_decode_error c resp w target d s2 hd]
    | none =>
      cases hk : target.lookup "extension" with
      | none => rw [helper_missing_root c resp w target s2 hd hk]
      | some t =>
        rw [helper_found c resp w target s2 t hd hk] at h
        exact absurd rfl h

lemma decode_message_ne (s : String) :
    "Could not decode JSON response: " ++ s ≠ "JSON response does not have extension field" := by
  intro h
  have h2 := congrArg (fun x : String => x.data.head?) h
  simp [String.data_append] at h2

lemma run_decode_fails (c : Client σ) (ctx : Context) (op : SingularOp) (w : World σ)
    (dErr : GoError) (h : DecodeFails c ctx op w dErr) :
    (op.run c ctx w).1 = (none, some ⟨"Could not decode JSON response: " ++ dErr.msg⟩) := by
  obtain ⟨resp, s1, target, s2, h1, h2⟩ := h
  rw [run_eq_helper, h1]
  exact congrArg Prod.fst (helper_decode_error c resp ⟨s1, _⟩ target dErr s2 h2)

/-! ## Lemmas on error values -/

lemma runValue_eq_helper (c : Client σ) (ctx : Context) (op : SingularOp) (w : World σ) :
    op.runValue c ctx w =
      getExtensionFromResponseValue c (op.answer c ctx w.state).1.1
        (op.answer c ctx w.state).1.2
        ⟨(op.answer c ctx w.state).2, w.calls ++ [op.call ctx]⟩ := by
  cases op <;> rfl

lemma helperValue_decode_error (c : Client σ) (resp : Option Response) (w : World σ)
    (target : List (String × Extension)) (dErr : GoError) (s2 : σ)
    (h : c.decodeMap resp w.state = ((target, some dErr), s2)) :
    getExtensionFromResponseValue c resp none w =
      ((none, some (ErrorValue.created ⟨"Could not decode JSON response: " ++ dErr.msg⟩)),
        ⟨s2, w.calls ++ [Call.decodeJSON resp]⟩) := by
  simp [getExtensionFromResponseValue, Client.decodeJSONMap, h, Errorf_decode]

lemma helperValue_missing_root (c : Client σ) (resp : Option Response) (w : World σ)
    (target : List (String × Extension)) (s2 : σ)
    (h : c.decodeMap resp w.state = ((target, none), s2))
    (hk : target.lookup "extension" = none) :
    getExtensionFromResponseValue c resp none w =
      ((none, some (ErrorValue.created ⟨"JSON response does not have extension field"⟩)),
        ⟨s2, w.calls ++ [Call.decodeJSON resp]⟩) := by
  simp [getExtensionFromResponseValue, Client.decodeJSONMap, h, hk, Errorf_missing_root]

lemma helperValue_found (c : Client σ) (resp : Option Response) (w : World σ)
    (target : List (String × Extension)) (s2 : σ) (t : Extension)
    (h : c.decodeMap resp w.state = ((target, none), s2))
    (hk : target.lookup "extension" = some t) :
    getExtensionFromResponseValue c resp none w =
      ((some t, none), ⟨s2, w.calls ++ [Call.decodeJSON resp]⟩) := by
  simp [getExtensionFromResponseValue, Client.decodeJSONMap, h, hk]

lemma helperValue_forget (c : Client σ) (resp : Option Response) (err : Option GoError)
    (w : World σ) :
    (((getExtensionFromResponseValue c resp err w).1.1,
        (getExtensionFromResponseValue c resp err w).1.2.map ErrorValue.error),
      (getExtensionFromResponseValue c resp err w).2) =
      getExtensionFromResponse c resp err w := by
  cases err with
  | some e => rfl
  | none =>
    rcases hd : c.decodeMap resp w.state with ⟨⟨target, dErr⟩, s2⟩
    cases dErr with
    | some d =>
      rw [helperValue_decode_error c resp w target d s2 hd,
        helper_decode_error c resp w target d s2 hd]
      rfl
    | none =>
      cases hk : target.lookup "extension" with
      | none =>
        rw [helperValue_missing_root c resp w target s2 hd hk,
          helper_missing_root c resp w target s2 hd hk]
        rfl
      | some t =>
        rw [helperValue_found c resp w target s2 t hd hk,
          helper_found c resp w target s2 t hd hk]
        rfl

lemma runValue_decode_fails (c : Client σ) (ctx : Context) (op : SingularOp) (w : World σ)
    (dErr : GoError) (h : DecodeFails c ctx op w dErr) :
    (op.runValue c ctx w).1 =
      (none, some (ErrorValue.created ⟨"Could not decode JSON response: " ++ dErr.msg⟩)) := by
  obtain ⟨resp, s1, target, s2, h1, h2⟩ := h
  rw [runValue_eq_helper, h1]
  exact congrArg Prod.fst (helperValue_decode_error c resp ⟨s1, _⟩ target dErr s2 h2)

lemma runValue_transport_fails (c : Client σ) (ctx : Context) (op : SingularOp) (w : World σ)
    (e : GoError) (h : TransportFails c ctx op w e) :
    (op.runValue c ctx w).1 = (none, some (ErrorValue.passed e)) := by
  obtain ⟨resp, s1, h1⟩ := h
  rw [runValue_eq_helper, h1]
  rfl

lemma runValue_missing_root (c : Client σ) (ctx : Context) (op : SingularOp) (w : World σ)
    (target : List (String × Extension)) (h : DecodesTo c ctx op w target)
    (hk : ∀ kv ∈ target, kv.1 ≠ "extension") :
    (op.runValue c ctx w).1 =
      (none, some (ErrorValue.created ⟨"JSON response does not have extension field"⟩)) := by
  obtain ⟨resp, s1, s2, h1, h2⟩ := h
  rw [runValue_eq_helper, h1]
  exact congrArg Prod.fst
    (helperValue_missing_root c resp ⟨s1, _⟩ target s2 h2 (lookup_none_of_no_key target hk))

lemma run_missing_root (c : Client σ) (ctx : Context) (op : SingularOp) (w : World σ)
    (target : List (String × Extension)) (h : DecodesTo c ctx op w target)
    (hk : ∀ kv ∈ target, kv.1 ≠ "extension") :
    (op.run c ctx w).1 = (none, some ⟨"JSON response does not have extension field"⟩) := by
  obtain ⟨resp, s1, s2, h1, h2⟩ := h
  rw [run_eq_helper, h1]
  exact congrArg Prod.fst
    (helper_missing_root c resp ⟨s1, _⟩ target s2 h2 (lookup_none_of_no_key target hk))

/-! ## Lemmas on the query string -/

lemma upperhex_clean (n : Nat) : upperhex n ≠ '&' ∧ upperhex n ≠ '=' := by
  have h : n % 16 < 16 := Nat.mod_lt _ (by decide)
  unfold upperhex
  generalize n % 16 = m at h
  interval_cases m <;> decide

lemma escapeChar_clean (c ch : Char) (h : ch ∈ escapeChar c) : ch ≠ '&' ∧ ch ≠ '=' := by
  unfold escapeChar at h
  split at h
  · simp at h; subst h; decide
  · split at h
    · simp only [List.mem_flatMap, List.mem_cons, List.mem_singleton, List.not_mem_nil,
        or_false] at h
      obtain ⟨b, -, hb⟩ := h
      rcases hb with hb | hb | hb
      · subst hb; decide
      · subst hb; exact upperhex_clean _
      · subst hb; exact upperhex_clean _
    · rename_i h1 h2
      simp only [List.mem_singleton] at h
      subst h
      constructor
      · rintro rfl
        exact h2 (by decide)
      · rintro rfl
        exact h2 (by decide)

lemma QueryEscape_clean (s : String) (ch : Char) (h : ch ∈ QueryEscape s) :
    ch ≠ '&' ∧ ch ≠ '=' := by
  unfold QueryEscape at h
  rw [List.mem_flatMap] at h
  obtain ⟨c, -, hc⟩ := h
  exact escapeChar_clean c ch hc

lemma encodeSegment_no_amp (kv : String × String) : '&' ∉ encodeSegment kv := by
  unfold encodeSegment
  intro h
  rw [List.mem_append, List.mem_cons] at h
  rcases h with h | h | h
  · exact (QueryEscape_clean _ _ h).1 rfl
  · exact absurd h (by decide)
  · exact (QueryEscape_clean _ _ h).1 rfl

lemma encodeSegment_ne_nil (kv : String × String) : encodeSegment kv ≠ [] := by
  unfold encodeSegment
  simp

lemma takeWhile_append_sep (l r : List Char) (h : ∀ ch ∈ l, ch ≠ '=') :
    (l ++ '=' :: r).takeWhile (fun ch => ch != '=') = l := by
  induction l with
  | nil => simp [List.takeWhile]
  | cons a l ih =>
    have ha : a ≠ '=' := h a (List.mem_cons_self _ _)
    have hl : ∀ ch ∈ l, ch ≠ '=' := fun ch hch => h ch (List.mem_cons_of_mem _ hch)
    have hb : (a != '=') = true := by simpa using ha
    simp [List.takeWhile, hb, ih hl]

lemma encodeSegment_name (kv : String × String) :
    (encodeSegment kv).takeWhile (fun ch => ch != '=') = QueryEscape kv.1 :=
  takeWhile_append_sep _ _ fun _ h => (QueryEscape_clean _ _ h).2

lemma querySegments_Encode (v : Values) :
    querySegments (Values.Encode v) = (v.insertionSort keyLE).map encodeSegment := by
  unfold querySegments Values.Encode
  generalize (v.insertionSort keyLE) = l
  cases l with
  | nil => decide
  | cons a l =>
    rw [List.splitOn_intercalate _ '&' (by
      intro seg hseg
      rw [List.mem_map] at hseg
      obtain ⟨kv, -, rfl⟩ := hseg
      exact encodeSegment_no_amp kv) (by simp)]
    rw [List.filter_eq_self]
    intro seg hseg
    rw [List.mem_map] at hseg
    obtain ⟨kv, -, rfl⟩ := hseg
    have := encodeSegment_ne_nil kv
    cases hs : encodeSegment kv with
    | nil => exact absurd hs this
    | cons _ _ => rfl

lemma mem_querySegments_Encode (v : Values) (seg : List Char) :
    seg ∈ querySegments (Values.Encode v) ↔ ∃ kv ∈ v, encodeSegment kv = seg := by
  rw [querySegments_Encode, List.mem_map]
  simp only [List.mem_insertionSort]

lemma mem_paramNames_Encode (v : Values) (k : String) :
    k ∈ paramNames (Values.Encode v) ↔ ∃ kv ∈ v, String.mk (QueryEscape kv.1) = k := by
  unfold paramNames
  rw [querySegments_Encode, List.map_map, List.mem_map]
  simp only [List.mem_insertionSort, Function.comp, encodeSegment_name]

lemma keys_addOmitEmpty (v : Values) (name : String) (b : Bool) (value : String)
    (kv : String × String) :
    kv ∈ addOmitEmpty v name b value ↔ kv ∈ v ∨ (b = false ∧ kv = (name, value)) := by
  unfold addOmitEmpty
  cases b <;> simp




lemma escape_names :
    String.mk (QueryEscape "extension_object_id") = "extension_object_id" ∧
    String.mk (QueryEscape "extension_schema_id") = "extension_schema_id" ∧
    String.mk (QueryEscape "query") = "query" ∧
    String.mk (QueryEscape "limit") = "limit" ∧
    String.mk (QueryEscape "offset") = "offset" ∧
    String.mk (QueryEscape "more") = "more" ∧
    String.mk (QueryEscape "total") = "total" := by
  decide

lemma mem_paramNames_queryValues (o : ListExtensionOptions) (k : String) :
    k ∈ paramNames (queryValues o).1.Encode ↔
      (o.ExtensionObjectID ≠ "" ∧ "extension_object_id" = k) ∨
      (o.ExtensionSchemaID ≠ "" ∧ "extension_schema_id" = k) ∨
      (o.Query ≠ "" ∧ "query" = k) ∨
      (o.Limit ≠ 0 ∧ "limit" = k) ∨
      (o.Offset ≠ 0 ∧ "offset" = k) ∨
      (o.More = true ∧ "more" = k) ∨
      (o.Total ≠ 0 ∧ "total" = k) := by
  obtain ⟨e1, e2, e3, e4, e5, e6, e7⟩ := escape_names
  rw [mem_paramNames_Encode]
  simp only [queryValues, keys_addOmitEmpty, or_and_right, exists_or, and_assoc,
    exists_and_left, exists_eq_left, e1, e2, e3, e4, e5, e6, e7, List.not_mem_nil, false_and,
    exists_false, false_or]
  simp [or_assoc]


lemma query_foo_segment (o : ListExtensionOptions) (h : o.Query = "foo") :
    "query=foo".data ∈ querySegments (queryValues o).1.Encode := by
  rw [mem_querySegments_Encode]
  refine ⟨("query", "foo"), ?_, by decide⟩
  simp [queryValues, keys_addOmitEmpty, h]

/-! ## Lemmas on the JSON form -/

lemma apiObject_decode_encode (a : APIObject) :
    APIObject.decodeInto APIObject.zero a.encode = Except.ok a := by
  rcases a with ⟨i, t, su, se, h⟩
  simp only [APIObject.encode, APIObject.decodeInto, APIObject.jsonFields, omitEmptyString]
  split_ifs <;> subst_vars <;> rfl

lemma decodeObjects_encodeObjects (xs : Option (List APIObject)) :
    decodeObjects (encodeObjects xs) = Except.ok xs := by
  cases xs with
  | none => rfl
  | some l =>
    simp only [encodeObjects, decodeObjects]
    have h : (l.map APIObject.encode).mapM (APIObject.decodeInto APIObject.zero) =
        Except.ok l := by
      induction l with
      | nil => rfl
      | cons a l ih =>
        simp only [List.map_cons, List.mapM_cons, apiObject_decode_encode, ih]
        rfl
    rw [h]
    rfl


lemma extension_decode_head (a : APIObject) (n u : String) :
    (a.jsonFields ++ [("name", JValue.string n)] ++ omitEmptyString "endpoint_url" u).foldlM
        Extension.setField Extension.zero =
      Except.ok { Extension.zero with toAPIObject := a, Name := n, EndpointURL := u } := by
  rcases a with ⟨i, t, su, se, h⟩
  simp only [APIObject.jsonFields, omitEmptyString]
  split_ifs <;> subst_vars <;> rfl

lemma extension_decode_tail (e0 : Extension) (h : e0.ExtensionSchema = APIObject.zero)
    (objs : Option (List APIObject)) (schema : APIObject) (cfg : JValue) :
    [("extension_objects", encodeObjects objs), ("extension_schema", schema.encode),
        ("config", cfg)].foldlM Extension.setField e0 =
      Except.ok { e0 with ExtensionObjects := objs, ExtensionSchema := schema, Config := cfg } := by
  have s1 : Extension.setField e0 ("extension_objects", encodeObjects objs) =
      Except.ok { e0 with ExtensionObjects := objs } := by
    simp only [Extension.setField, decodeObjects_encodeObjects]
    rfl
  have s2 : Extension.setField { e0 with ExtensionObjects := objs }
      ("extension_schema", schema.encode) =
      Except.ok { e0 with ExtensionObjects := objs, ExtensionSchema := schema } := by
    simp only [Extension.setField, h, apiObject_decode_encode]
    rfl
  rw [List.foldlM_cons, s1]
  show List.foldlM Extension.setField { e0 with ExtensionObjects := objs } _ = _
  rw [List.foldlM_cons, s2]
  rfl

/-! ## The claims -/

/-- C1: for Create, Get and Update alike, when the HTTP call succeeds and the
response body decodes to a mapping that has no key `"extension"`, the operation
returns a nil Extension and the error "JSON response does not have extension
field". -/
theorem missing_root_field_is_error (c : Client σ) (ctx : Context) (op : SingularOp)
    (w : World σ) (target : List (String × Extension)) (h : DecodesTo c ctx op w target)
    (hk : ∀ kv ∈ target, kv.1 ≠ "extension") :
    (op.run c ctx w).1 =
      (none, some ⟨"JSON response does not have extension field"⟩) := by
  obtain ⟨resp, s1, s2, h1, h2⟩ := h
  rw [run_eq_helper, h1]
  exact congrArg Prod.fst
    (helper_missing_root c resp ⟨s1, _⟩ target s2 h2 (lookup_none_of_no_key target hk))


/-- Get, Create and Update against a collaborator answering with the one key
`other_key`. -/
theorem missing_root_field_is_error_witness :
    (DecodesTo otherKeyClient Context.background (SingularOp.get "PX1") World.start
        [("other_key", extXN)] ∧
      (SingularOp.run otherKeyClient Context.background (SingularOp.get "PX1") World.start).1 =
        (none, some ⟨"JSON response does not have extension field"⟩)) ∧
    (SingularOp.run otherKeyClient (Context.derived 1) (SingularOp.create (some extXN))
        World.start).1 = (none, some ⟨"JSON response does not have extension field"⟩) ∧
    (SingularOp.run otherKeyClient (Context.derived 2) (SingularOp.update "PX1" (some extXN))
        World.start).1 = (none, some ⟨"JSON response does not have extension field"⟩) :=
  ⟨⟨⟨_, _, _, rfl, rfl⟩,
      missing_root_field_is_error otherKeyClient Context.background (SingularOp.get "PX1")
        World.start [("other_key", extXN)] ⟨_, _, _, rfl, rfl⟩ (by decide)⟩,
    missing_root_field_is_error otherKeyClient (Context.derived 1)
      (SingularOp.create (some extXN)) World.start [("other_key", extXN)] ⟨_, _, _, rfl, rfl⟩
      (by decide),
    missing_root_field_is_error otherKeyClient (Context.derived 2)
      (SingularOp.update "PX1" (some extXN)) World.start [("other_key", extXN)]
      ⟨_, _, _, rfl, rfl⟩ (by decide)⟩

/-- C2: for Create, Get and Update alike, when the HTTP call succeeds and the
response body decodes to a mapping in which the key `"extension"` holds `t`, the
operation returns `t` and a nil error, whatever else the mapping holds. -/
theorem root_field_is_returned (c : Client σ) (ctx : Context) (op : SingularOp)
    (w : World σ) (target : List (String × Extension)) (t : Extension)
    (h : DecodesTo c ctx op w target) (hk : target.lookup "extension" = some t) :
    (op.run c ctx w).1 = (some t, none) := by
  obtain ⟨resp, s1, s2, h1, h2⟩ := h
  rw [run_eq_helper, h1]
  exact congrArg Prod.fst (helper_found c resp ⟨s1, _⟩ target s2 t h2 hk)


/-- Get, Create and Update against a collaborator answering with `other_key` and
`extension`, the latter holding the Extension with id `X` and name `N`. -/
theorem root_field_is_returned_witness :
    (DecodesTo extensionClient Context.background (SingularOp.get "X") World.start
        [("other_key", Extension.zero), ("extension", extXN)] ∧
      List.lookup "extension" [("other_key", Extension.zero), ("extension", extXN)] =
        some extXN ∧
      (SingularOp.run extensionClient Context.background (SingularOp.get "X") World.start).1 =
        (some extXN, none)) ∧
    (SingularOp.run extensionClient (Context.derived 1) (SingularOp.create (some extXN))
        World.start).1 = (some extXN, none) ∧
    (SingularOp.run extensionClient (Context.derived 2) (SingularOp.update "X" none)
        World.start).1 = (some extXN, none) ∧
    extXN.ID = "X" ∧ extXN.Name = "N" :=
  ⟨⟨⟨_, _, _, rfl, rfl⟩, rfl,
      root_field_is_returned extensionClient Context.background (SingularOp.get "X") World.start
        [("other_key", Extension.zero), ("extension", extXN)] extXN ⟨_, _, _, rfl, rfl⟩ rfl⟩,
    root_field_is_returned extensionClient (Context.derived 1) (SingularOp.create (some extXN))
      World.start [("other_key", Extension.zero), ("extension", extXN)] extXN
      ⟨_, _, _, rfl, rfl⟩ rfl,
    root_field_is_returned extensionClient (Context.derived 2) (SingularOp.update "X" none)
      World.start [("other_key", Extension.zero), ("extension", extXN)] extXN
      ⟨_, _, _, rfl, rfl⟩ rfl,
    rfl, rfl⟩

/-- C3: when the HTTP call of an operation returns the error `e`, the operation
returns exactly `e`, a nil result where it has one, and the call log has gained
the HTTP call and nothing else, so `decodeJSON` was not called.  The three
parts are Create/Get/Update, List and Delete. -/
theorem transport_error_propagates (c : Client σ) (ctx : Context) (w : World σ) (e : GoError) :
    (∀ op : SingularOp, TransportFails c ctx op w e →
      (op.run c ctx w).1 = (none, some e) ∧
        (op.run c ctx w).2.calls = w.calls ++ [op.call ctx]) ∧
    (∀ (o : ListExtensionOptions) (resp : Option Response) (s1 : σ),
      c.httpGet ctx ("/extensions?" ++ (queryValues o).1.Encode) w.state = ((resp, some e), s1) →
      (ListExtensionsWithContext c ctx o w).1 = (none, some e) ∧
        (ListExtensionsWithContext c ctx o w).2.calls =
          w.calls ++ [Call.get ctx ("/extensions?" ++ (queryValues o).1.Encode)]) ∧
    (∀ (id : String) (resp : Option Response) (s1 : σ),
      c.httpDelete ctx ("/extensions/" ++ id) w.state = ((resp, some e), s1) →
      (DeleteExtensionWithContext c ctx id w).1 = some e ∧
        (DeleteExtensionWithContext c ctx id w).2.calls =
          w.calls ++ [Call.delete ctx ("/extensions/" ++ id)]) := by
  refine ⟨?_, ?_, ?_⟩
  · rintro op ⟨resp, s1, h1⟩
    rw [run_eq_helper, h1]
    exact ⟨rfl, rfl⟩
  · intro o resp s1 h
    rw [list_get_error c ctx o w resp e s1 h]
    exact ⟨rfl, rfl⟩
  · intro id resp s1 h
    simp [DeleteExtensionWithContext, Client.delete, h]


/-- Update, List and Delete against a collaborator whose HTTP calls fail with
"connection refused". -/
theorem transport_error_propagates_witness :
    (TransportFails (failingClient ⟨"connection refused"⟩) Context.background
        (SingularOp.update "PX1" (some extXN)) World.start ⟨"connection refused"⟩ ∧
      (SingularOp.run (failingClient ⟨"connection refused"⟩) Context.background
          (SingularOp.update "PX1" (some extXN)) World.start).1 =
        (none, some ⟨"connection refused"⟩) ∧
      (SingularOp.run (failingClient ⟨"connection refused"⟩) Context.background
          (SingularOp.update "PX1" (some extXN)) World.start).2.calls =
        [Call.put Context.background "/extensions/PX1" (some extXN) none]) ∧
    ((ListExtensionsWithContext (failingClient ⟨"connection refused"⟩) Context.background
          queryFoo World.start).1 = (none, some ⟨"connection refused"⟩) ∧
      (ListExtensionsWithContext (failingClient ⟨"connection refused"⟩) Context.background
          queryFoo World.start).2.calls =
        [] ++ [Call.get Context.background ("/extensions?" ++ (queryValues queryFoo).1.Encode)]) ∧
    ((DeleteExtensionWithContext (failingClient ⟨"connection refused"⟩) Context.background
          "PX1" World.start).1 = some ⟨"connection refused"⟩ ∧
      (DeleteExtensionWithContext (failingClient ⟨"connection refused"⟩) Context.background
          "PX1" World.start).2.calls =
        [] ++ [Call.delete Context.background ("/extensions/" ++ "PX1")]) :=
  ⟨⟨⟨_, _, rfl⟩,
      (transport_error_propagates (failingClient ⟨"connection refused"⟩) Context.background
        World.start ⟨"connection refused"⟩).1 (SingularOp.update "PX1" (some extXN))
        ⟨_, _, rfl⟩⟩,
    (transport_error_propagates (failingClient ⟨"connection refused"⟩) Context.background
      World.start ⟨"connection refused"⟩).2.1 queryFoo none () rfl,
    (transport_error_propagates (failingClient ⟨"connection refused"⟩) Context.background
      World.start ⟨"connection refused"⟩).2.2 "PX1" none () rfl⟩

/-- C4: when `delete` returns a nil error, `DeleteExtensionWithContext` returns
nil whatever the response is, and the call log has gained exactly one call,
`delete` on `"/extensions/"` followed by the id: the response is not decoded. -/
theorem delete_issues_one_call (c : Client σ) (ctx : Context) (id : String) (w : World σ)
    (resp : Option Response) (s1 : σ)
    (h : c.httpDelete ctx ("/extensions/" ++ id) w.state = ((resp, none), s1)) :
    DeleteExtensionWithContext c ctx id w =
      (none, ⟨s1, w.calls ++ [Call.delete ctx ("/extensions/" ++ id)]⟩) := by
  simp [DeleteExtensionWithContext, Client.delete, h]


/-- Delete of `PX1` against a collaborator answering `200 OK`. -/
theorem delete_issues_one_call_witness :
    DeleteExtensionWithContext otherKeyClient (Context.derived 7) "PX1" World.start =
      (none, ⟨(), [] ++ [Call.delete (Context.derived 7) ("/extensions/" ++ "PX1")]⟩) :=
  delete_issues_one_call otherKeyClient (Context.derived 7) "PX1" World.start (some okResponse)
    () rfl

/-- C5: the path `ListExtensionsWithContext` passes to `get` is `"/extensions?"`
followed by the encoded query string; each of the parameters
`extension_object_id`, `extension_schema_id` and `query` is among the parameter
names of that string if and only if its field is not empty; and with `Query` equal
to `"foo"` and the other two fields empty the string has the segment `query=foo`
and neither of the other two parameters. -/
theorem list_query_string (c : Client σ) (ctx : Context) (o : ListExtensionOptions)
    (w : World σ) :
    (∃ rest, (ListExtensionsWithContext c ctx o w).2.calls =
        w.calls ++ Call.get ctx ("/extensions?" ++ (queryValues o).1.Encode) :: rest ∧
      rest.all (fun x => !x.isHTTP) = true) ∧
    ("extension_object_id" ∈ paramNames (queryValues o).1.Encode ↔ o.ExtensionObjectID ≠ "") ∧
    ("extension_schema_id" ∈ paramNames (queryValues o).1.Encode ↔ o.ExtensionSchemaID ≠ "") ∧
    ("query" ∈ paramNames (queryValues o).1.Encode ↔ o.Query ≠ "") ∧
    (o.Query = "foo" → o.ExtensionObjectID = "" → o.ExtensionSchemaID = "" →
      "query=foo".data ∈ querySegments (queryValues o).1.Encode ∧
        "extension_object_id" ∉ paramNames (queryValues o).1.Encode ∧
        "extension_schema_id" ∉ paramNames (queryValues o).1.Encode) := by
  refine ⟨list_calls_get c ctx o w, ?_, ?_, ?_, ?_⟩
  · rw [mem_paramNames_queryValues]
    simp
  · rw [mem_paramNames_queryValues]
    simp
  · rw [mem_paramNames_queryValues]
    simp
  · intro hq ho hs
    refine ⟨query_foo_segment o hq, ?_, ?_⟩
    · rw [mem_paramNames_queryValues]
      simp [ho]
    · rw [mem_paramNames_queryValues]
      simp [hs]

/-- List with `Query` equal to `"foo"` and a limit of 25: the query string is
`limit=25&query=foo`. -/
theorem list_query_string_witness :
    (queryValues queryFooLimit).1.Encode = "limit=25&query=foo" ∧
    "query=foo".data ∈ querySegments (queryValues queryFooLimit).1.Encode ∧
    "extension_object_id" ∉ paramNames (queryValues queryFooLimit).1.Encode ∧
    "extension_schema_id" ∉ paramNames (queryValues queryFooLimit).1.Encode :=
  ⟨by decide,
    (list_query_string otherKeyClient Context.background queryFooLimit World.start).2.2.2.2 rfl
      rfl rfl⟩

/-- C6: decoding the JSON form of an Extension gives back the same Extension,
field by field: the five reference fields, the name, the endpoint URL, the list
of object references (nil or not), the schema reference, and the config value,
whatever JSON value it is. -/
theorem extension_decode_encode (e : Extension) :
    Extension.decode (Extension.encode e) = Except.ok e := by
  rcases e with ⟨a, n, u, objs, schema, cfg⟩
  simp only [Extension.encode, Extension.decode]
  rw [List.foldlM_append, extension_decode_head]
  exact extension_decode_tail _ rfl objs schema cfg

/-- C7: each operation without context returns the same result and error, and
leaves the same world (collaborator state and call log), as its WithContext
counterpart called with the background context and the same arguments. -/
theorem legacy_is_forwarding (c : Client σ) (w : World σ) :
    (∀ o, ListExtensions c o w = ListExtensionsWithContext c Context.background o w) ∧
    (∀ e, CreateExtension c e w = CreateExtensionWithContext c Context.background e w) ∧
    (∀ id, DeleteExtension c id w = DeleteExtensionWithContext c Context.background id w) ∧
    (∀ id, GetExtension c id w = GetExtensionWithContext c Context.background id w) ∧
    (∀ id e, UpdateExtension c id e w =
      UpdateExtensionWithContext c Context.background id e w) :=
  ⟨fun _ => rfl, fun _ => rfl, fun _ => rfl, fun _ => rfl, fun _ _ => rfl⟩

/-- C8: Create, Get and Update each add to the call log one HTTP call, made with
the context of the caller: `post` on `"/extensions"` with body `e`, `get` on
`"/extensions/"` followed by the id as given, `put` on `"/extensions/"` followed
by the id with body `e`; whatever follows it in the log is not an HTTP call. -/
theorem singular_issues_one_http_call (c : Client σ) (ctx : Context) (w : World σ) :
    (∀ e, ∃ rest, (CreateExtensionWithContext c ctx e w).2.calls =
        w.calls ++ Call.post ctx "/extensions" e none :: rest ∧
      rest.all (fun x => !x.isHTTP) = true) ∧
    (∀ id, ∃ rest, (GetExtensionWithContext c ctx id w).2.calls =
        w.calls ++ Call.get ctx ("/extensions/" ++ id) :: rest ∧
      rest.all (fun x => !x.isHTTP) = true) ∧
    (∀ id e, ∃ rest, (UpdateExtensionWithContext c ctx id e w).2.calls =
        w.calls ++ Call.put ctx ("/extensions/" ++ id) e none :: rest ∧
      rest.all (fun x => !x.isHTTP) = true) := by
  have key : ∀ op : SingularOp, ∃ rest, (op.run c ctx w).2.calls =
      w.calls ++ op.call ctx :: rest ∧ rest.all (fun x => !x.isHTTP) = true := by
    intro op
    rw [run_eq_helper]
    obtain ⟨rest, h1, h2⟩ := helper_calls c (op.answer c ctx w.state).1.1
      (op.answer c ctx w.state).1.2 ⟨(op.answer c ctx w.state).2, w.calls ++ [op.call ctx]⟩
    exact ⟨rest, by simp [h1], h2⟩
  exact ⟨fun e => key (SingularOp.create e), fun id => key (SingularOp.get id),
    fun id e => key (SingularOp.update id e)⟩

/-- C9: when `get` succeeds, `ListExtensionsWithContext` returns exactly what
`decodeJSON` left in the result, with a nil error, when the decoding succeeds
(so the pagination fields and the sequence of extensions are the decoded ones,
in the decoded order), and a nil response with the decoding error when it
fails. -/
theorem list_returns_decoded (c : Client σ) (ctx : Context) (o : ListExtensionOptions)
    (w : World σ) (resp : Option Response) (s1 : σ)
    (hget : c.httpGet ctx ("/extensions?" ++ (queryValues o).1.Encode) w.state =
      ((resp, none), s1)) :
    (∀ result s2, c.decodeList resp s1 = ((result, none), s2) →
      (ListExtensionsWithContext c ctx o w).1 = (some result, none)) ∧
    (∀ result dErr s2, c.decodeList resp s1 = ((result, some dErr), s2) →
      (ListExtensionsWithContext c ctx o w).1 = (none, some dErr)) := by
  constructor
  · intro result s2 h
    rw [list_decode_ok c ctx o w resp s1 result s2 hget h]
  · intro result dErr s2 h
    rw [list_decode_error c ctx o w resp s1 result dErr s2 hget h]

/-- List against a collaborator decoding one extension, and against one whose
decoding fails. -/
theorem list_returns_decoded_witness :
    (ListExtensionsWithContext extensionClient Context.background queryFoo World.start).1 =
        (some { ListExtensionResponse.zero with Extensions := [extXN] }, none) ∧
    (ListExtensionsWithContext (undecodableClient ⟨"unexpected end of JSON input"⟩)
        Context.background queryFoo World.start).1 =
      (none, some ⟨"unexpected end of JSON input"⟩) :=
  ⟨(list_returns_decoded extensionClient Context.background queryFoo World.start
      (some okResponse) () rfl).1 _ () rfl,
    (list_returns_decoded (undecodableClient ⟨"unexpected end of JSON input"⟩)
      Context.background queryFoo World.start (some okResponse) () rfl).2
      ListExtensionResponse.zero _ () rfl⟩

/-- C10: in Create, Get and Update an error never comes with a partial result
and the failure kinds are told apart.  Whenever an error is returned the
Extension is nil.  A `decodeJSON` failure `dErr` is reported as a new error
whose message is "Could not decode JSON response: " followed by the message of
`dErr`.  A response without the root field is reported as a new error with the
message "JSON response does not have extension field".  A transport failure is
reported as the error of the collaborator itself.  The missing-root-field error
is distinct from the error of every decode failure, by its message already,
and from the error of every transport failure, being a new value and not one
the collaborator handed over.  The first part says that the run with error
values is the operation itself. -/
theorem failure_kinds_told_apart (c : Client σ) (ctx : Context) (op : SingularOp)
    (w : World σ) {τ : Type} (c2 : Client τ) (ctx2 : Context) (op2 : SingularOp)
    (w2 : World τ) :
    (((op.runValue c ctx w).1.1, (op.runValue c ctx w).1.2.map ErrorValue.error),
      (op.runValue c ctx w).2) = op.run c ctx w ∧
    ((op.run c ctx w).1.2 ≠ none → (op.run c ctx w).1.1 = none) ∧
    (∀ dErr, DecodeFails c ctx op w dErr →
      (op.runValue c ctx w).1.2 =
        some (ErrorValue.created ⟨"Could not decode JSON response: " ++ dErr.msg⟩)) ∧
    (∀ e, TransportFails c ctx op w e →
      (op.runValue c ctx w).1.2 = some (ErrorValue.passed e)) ∧
    (∀ target, DecodesTo c ctx op w target → (∀ kv ∈ target, kv.1 ≠ "extension") →
      (op.runValue c ctx w).1.2 =
          some (ErrorValue.created ⟨"JSON response does not have extension field"⟩) ∧
        (∀ dErr, DecodeFails c2 ctx2 op2 w2 dErr →
          (op2.run c2 ctx2 w2).1.2 ≠ (op.run c ctx w).1.2 ∧
            (op2.runValue c2 ctx2 w2).1.2 ≠ (op.runValue c ctx w).1.2) ∧
        (∀ e, TransportFails c2 ctx2 op2 w2 e →
          (op2.runValue c2 ctx2 w2).1.2 ≠ (op.runValue c ctx w).1.2)) := by
  refine ⟨?_, ?_, ?_, ?_, ?_⟩
  · rw [runValue_eq_helper, run_eq_helper]
    exact helperValue_forget c _ _ _
  · rw [run_eq_helper]
    exact helper_error_no_result c _ _ _
  · intro dErr h
    rw [runValue_decode_fails c ctx op w dErr h]
  · intro e h
    rw [runValue_transport_fails c ctx op w e h]
  · intro target h hk
    rw [runValue_missing_root c ctx op w target h hk, run_missing_root c ctx op w target h hk]
    refine ⟨rfl, ?_, ?_⟩
    · intro dErr h2
      rw [run_decode_fails c2 ctx2 op2 w2 dErr h2, runValue_decode_fails c2 ctx2 op2 w2 dErr h2]
      have hne := decode_message_ne dErr.msg
      constructor
      · simp only [ne_eq, Option.some.injEq, GoError.mk.injEq]
        exact hne
      · simp only [ne_eq, Option.some.injEq, ErrorValue.created.injEq, GoError.mk.injEq]
        exact hne
    · intro e h2
      rw [runValue_transport_fails c2 ctx2 op2 w2 e h2]
      simp

/-- The parts at a failing transport, a failing decoder and a response without
the root field; the last part at a transport whose error has the very text of
the missing-root-field error. -/
theorem failure_kinds_told_apart_witness :
    ((SingularOp.run (failingClient ⟨"connection refused"⟩) Context.background
        (SingularOp.get "PX1") World.start).1.2 ≠ none ∧
      (SingularOp.run (failingClient ⟨"connection refused"⟩) Context.background
        (SingularOp.get "PX1") World.start).1.1 = none) ∧
    (SingularOp.runValue (undecodableClient ⟨"unexpected EOF"⟩) Context.background
        (SingularOp.create (some extXN)) World.start).1.2 =
      some (ErrorValue.created ⟨"Could not decode JSON response: " ++ "unexpected EOF"⟩) ∧
    (SingularOp.runValue (failingClient ⟨"connection refused"⟩) Context.background
        (SingularOp.get "PX1") World.start).1.2 =
      some (ErrorValue.passed ⟨"connection refused"⟩) ∧
    (SingularOp.runValue otherKeyClient Context.background (SingularOp.update "PX1" none)
        World.start).1.2 =
      some (ErrorValue.created ⟨"JSON response does not have extension field"⟩) ∧
    ((SingularOp.run (undecodableClient ⟨"unexpected EOF"⟩) Context.background
        (SingularOp.create (some extXN)) World.start).1.2 ≠
      (SingularOp.run otherKeyClient Context.background (SingularOp.update "PX1" none)
        World.start).1.2) ∧
    ((SingularOp.runValue (failingClient ⟨"JSON response does not have extension field"⟩)
        Context.background (SingularOp.get "PX1") World.start).1.2 ≠
      (SingularOp.runValue otherKeyClient Context.background (SingularOp.update "PX1" none)
        World.start).1.2) :=
  ⟨⟨by decide,
      (failure_kinds_told_apart (failingClient ⟨"connection refused"⟩) Context.background
        (SingularOp.get "PX1") World.start otherKeyClient Context.background
        (SingularOp.get "PX1") World.start).2.1 (by decide)⟩,
    (failure_kinds_told_apart (undecodableClient ⟨"unexpected EOF"⟩) Context.background
      (SingularOp.create (some extXN)) World.start otherKeyClient Context.background
      (SingularOp.get "PX1") World.start).2.2.1 ⟨"unexpected EOF"⟩ ⟨_, _, _, _, rfl, rfl⟩,
    (failure_kinds_told_apart (failingClient ⟨"connection refused"⟩) Context.background
      (SingularOp.get "PX1") World.start otherKeyClient Context.background
      (SingularOp.get "PX1") World.start).2.2.2.1 ⟨"connection refused"⟩ ⟨_, _, rfl⟩,
    ((failure_kinds_told_apart otherKeyClient Context.background
      (SingularOp.update "PX1" none) World.start (undecodableClient ⟨"unexpected EOF"⟩)
      Context.background (SingularOp.create (some extXN)) World.start).2.2.2.2
      [("other_key", extXN)] ⟨_, _, _, rfl, rfl⟩ (by decide)).1,
    (((failure_kinds_told_apart otherKeyClient Context.background
      (SingularOp.update "PX1" none) World.start (undecodableClient ⟨"unexpected EOF"⟩)
      Context.background (SingularOp.create (some extXN)) World.start).2.2.2.2
      [("other_key", extXN)] ⟨_, _, _, rfl, rfl⟩ (by decide)).2.1 ⟨"unexpected EOF"⟩
      ⟨_, _, _, _, rfl, rfl⟩).1,
    ((failure_kinds_told_apart otherKeyClient Context.background
      (SingularOp.update "PX1" none) World.start
      (failingClient ⟨"JSON response does not have extension field"⟩) Context.background
      (SingularOp.get "PX1") World.start).2.2.2.2
      [("other_key", extXN)] ⟨_, _, _, rfl, rfl⟩ (by decide)).2.2
      ⟨"JSON response does not have extension field"⟩ ⟨_, _, rfl⟩⟩

end Pagerduty
